import Mathlib

/-!
Verification development for `quick_scan_container_images_parallel.py`.

The Python source is shallowly embedded over `List Char`: each regular
expression the source uses (`check=([^ ]+)`, `result=([^ ]+)`,
`file=([^ ]+)`, `result:\s*(PASSED|FAILED|NOT_APP)`) is modelled by a
dedicated scanning function with Python `re.search`/`re.findall`
semantics (leftmost match, greedy `[^ ]+` capture, non-overlapping
`findall`), and the Python string operations `split`, `splitlines`,
`replace` and `join` are modelled character by character.  External
effects (the `preflight` subprocess, reading the per-task temporary log
file, the JSON discovery that `json.loads` performs) are supplied as an
explicit world record, so each function of the source becomes a total
Lean function of its inputs and that world.
-/

namespace QuickScan

/-- Characters of a Python string; all text in this development is the
character list of the corresponding Python string. -/
abbrev Str := List Char

/-- The character list of a Lean string literal. -/
def str (s : String) : Str := s.data

/-- Python's `\s` character class (the ASCII part used by the source's
patterns): space, tab, newline, carriage return, vertical tab, form feed. -/
def isPySpace (c : Char) : Bool :=
  c = ' ' || c = '\t' || c = '\n' || c = '\r' || c = '\x0b' || c = '\x0c'

/-- Python `s.split(sep)` for a one-character separator: splits at every
occurrence, keeping empty segments (so `"".split(",") = [""]`). -/
def pySplit (sep : Char) : Str → List Str
  | [] => [[]]
  | c :: rest =>
    let r := pySplit sep rest
    if c = sep then [] :: r
    else
      match r with
      | h :: t => (c :: h) :: t
      | [] => [[c]]

/-- Worker for `pySplitlines`: accumulates the current line (reversed) and
splits at `\n`, `\r` and `\r\n`, dropping the empty segment after a final
line break, exactly as Python `str.splitlines` does on these separators. -/
def splitlinesGo (acc : Str) : Str → List Str
  | [] => [acc.reverse]
  | '\r' :: '\n' :: rest => acc.reverse :: (if rest = [] then [] else splitlinesGo [] rest)
  | '\r' :: rest => acc.reverse :: (if rest = [] then [] else splitlinesGo [] rest)
  | '\n' :: rest => acc.reverse :: (if rest = [] then [] else splitlinesGo [] rest)
  | c :: rest => splitlinesGo (c :: acc) rest

/-- Python `output.splitlines()` restricted to the `\n`, `\r`, `\r\n` line
breaks (the source's output never contains the rarer Unicode breaks). -/
def pySplitlines (s : Str) : List Str :=
  if s = [] then [] else splitlinesGo [] s

/-- `re.search(pat ++ "([^ ]+)", s)` for a literal pattern `pat`: the match
at the leftmost position where the literal occurs followed by at least one
non-space character; the returned capture is the maximal non-space run
after the literal.  When the literal occurs but is followed by a space (or
the end), the scan resumes one character further, as `re.search` does. -/
def searchCapture (pat : Str) : Str → Option Str
  | [] => none
  | c :: rest =>
    if pat.isPrefixOf (c :: rest) then
      let cap := ((c :: rest).drop pat.length).takeWhile (fun ch => ch ≠ ' ')
      if cap = [] then searchCapture pat rest else some cap
    else searchCapture pat rest

/-- Fuel-indexed worker for `findallCapture`; the fuel is the length of the
scanned text, which bounds the number of scanning steps. -/
def findallGo (pat : Str) : Nat → Str → List Str
  | _, [] => []
  | 0, _ => []
  | fuel + 1, c :: rest =>
    if pat.isPrefixOf (c :: rest) then
      let cap := ((c :: rest).drop pat.length).takeWhile (fun ch => ch ≠ ' ')
      if cap = [] then findallGo pat fuel rest
      else cap :: findallGo pat fuel (((c :: rest).drop pat.length).drop cap.length)
    else findallGo pat fuel rest

/-- `re.findall(pat ++ "([^ ]+)", s)` for a literal `pat`: all captures of
non-overlapping leftmost matches, scanning resuming after each match. -/
def findallCapture (pat s : Str) : List Str := findallGo pat s.length s

/-- Fuel-indexed worker for `pyReplace`. -/
def pyReplaceGo (old new : Str) : Nat → Str → Str
  | _, [] => []
  | 0, s => s
  | fuel + 1, c :: rest =>
    if old ≠ [] ∧ old.isPrefixOf (c :: rest) then
      new ++ pyReplaceGo old new fuel ((c :: rest).drop old.length)
    else c :: pyReplaceGo old new fuel rest

/-- Python `s.replace(old, new)` for non-empty `old`: every non-overlapping
occurrence, left to right, is replaced. -/
def pyReplace (old new s : Str) : Str := pyReplaceGo old new s.length s

/-- `re.search(lit ++ "\s*(PASSED|FAILED|NOT_APP)", s)` for a literal
`lit`, returning the captured verdict token.  After the literal, the
greedy `\s*` with backtracking is equivalent to skipping the maximal
whitespace run, because none of the three alternatives starts with a
whitespace character; on failure the scan resumes one character further. -/
def searchVerdictAfter (lit : Str) : Str → Option Str
  | [] => none
  | c :: rest =>
    if lit.isPrefixOf (c :: rest) then
      let after := ((c :: rest).drop lit.length).dropWhile isPySpace
      if (str "PASSED").isPrefixOf after then some (str "PASSED")
      else if (str "FAILED").isPrefixOf after then some (str "FAILED")
      else if (str "NOT_APP").isPrefixOf after then some (str "NOT_APP")
      else searchVerdictAfter lit rest
    else searchVerdictAfter lit rest

/-- Worker for `splitWs`. -/
def splitWsGo (acc : Str) : Str → List Str
  | [] => if acc = [] then [] else [acc.reverse]
  | c :: rest =>
    if isPySpace c then
      if acc = [] then splitWsGo [] rest else acc.reverse :: splitWsGo [] rest
    else splitWsGo (c :: acc) rest

/-- Python `s.split()` with no argument: the whitespace-separated tokens of
a line, with no empty tokens. -/
def splitWs (s : Str) : List Str := splitWsGo [] s

/-- Modelled from the spec: "a token pair matching a check identifier token
and a result token on the same line (format: two freeform key=value tokens
separated by whitespace, order-independent within the line, keys being
exactly `check` and `result`)".  `key` is the key together with its `=`
sign; a token carries it exactly when the token is `key` followed by a
non-empty value. -/
def specTokenMatch (key line : Str) : Bool :=
  (splitWs line).any (fun tok => key.isPrefixOf tok && decide (key.length < tok.length))

/-! ## The result model of `parse_preflight_output` -/

/-- One CSV row appended by `parse_preflight_output` (the Python list
`[image_name, tag, mod_files, test_case, status]`). -/
structure CsvRow where
  imageName : Str
  tag : Str
  modFiles : Str
  testCase : Str
  status : Str
deriving DecidableEq

/-- JSON values, as `json.loads` produces them (numbers restricted to the
integers the tool emits; the source never arithmetically uses them). -/
inductive JVal where
  | jnull : JVal
  | jbool : Bool → JVal
  | jnum : Int → JVal
  | jstr : Str → JVal
  | jarr : List JVal → JVal
  | jobj : List (Str × JVal) → JVal

/-- Python `d.get(k)` on a JSON object (`None` when the key is absent);
objects from `json.loads` have distinct keys, so first-match lookup is the
dictionary lookup. -/
def jget (fields : List (Str × JVal)) (k : Str) : Option JVal :=
  (fields.find? (fun p => p.1 == k)).map (fun p => p.2)

/-- Python `str(v)` on the JSON values the source can feed it (the
`elapsed_time` field).  Composite values are rendered opaquely: no claim
inspects `str()` of an array or object. -/
def pyStr : JVal → Str
  | JVal.jstr s => s
  | JVal.jnum n => str (toString n)
  | JVal.jbool true => str "True"
  | JVal.jbool false => str "False"
  | JVal.jnull => str "None"
  | JVal.jarr _ => str "[...]"
  | JVal.jobj _ => str "object"

/-- One detailed-check dictionary built at lines 2707-2717 of the source:
`image_name`/`image_tag` come from the task, the remaining fields from the
recovered JSON object with `''` as default (and `str()` on `elapsed_time`). -/
structure DetailedCheck where
  image_name : Str
  image_tag : Str
  name : JVal
  elapsed_time : Str
  description : JVal
  help : JVal
  suggestion : JVal
  knowledgebase_url : JVal
  check_url : JVal

/-- Lines 2707-2717: the dictionary built from one recovered check object. -/
def mkDetailedCheck (img tag : Str) (check : List (Str × JVal)) : DetailedCheck :=
  { image_name := img
    image_tag := tag
    name := (jget check (str "name")).getD (JVal.jstr [])
    elapsed_time := pyStr ((jget check (str "elapsed_time")).getD (JVal.jstr []))
    description := (jget check (str "description")).getD (JVal.jstr [])
    help := (jget check (str "help")).getD (JVal.jstr [])
    suggestion := (jget check (str "suggestion")).getD (JVal.jstr [])
    knowledgebase_url := (jget check (str "knowledgebase_url")).getD (JVal.jstr [])
    check_url := (jget check (str "check_url")).getD (JVal.jstr []) }

/-- The array behind an optional JSON field, `[]` when absent.  Used for
`json_results["passed"/"failed"/"errors"]` at lines 2685-2700. -/
def arrOf : Option JVal → List JVal
  | some (JVal.jarr xs) => xs
  | _ => []

/-- Whether a JSON value is an object (Python `isinstance(check, dict)`). -/
def isObjCheck : JVal → Bool
  | JVal.jobj _ => true
  | _ => false

/-- Whether an optional JSON field is absent or an array: the domain on
which lines 2685-2700 are modelled (on a present non-array field the
source's `list.extend` raises `TypeError`, caught by the enclosing
`except`, or silently contributes no dictionary entries). -/
def optArr : Option JVal → Bool
  | none => true
  | some (JVal.jarr _) => true
  | _ => false

/-- Lines 2682-2704 of the source: the flat list of check objects to
process.  The new format takes `results.passed ++ results.failed ++
results.errors`; the legacy format takes the `checks` array. -/
def checksToProcess (json_data : JVal) : List JVal :=
  match json_data with
  | JVal.jobj fields =>
    match jget fields (str "results") with
    | some (JVal.jobj rf) =>
      arrOf (jget rf (str "passed")) ++ arrOf (jget rf (str "failed")) ++
        arrOf (jget rf (str "errors"))
    | some _ => []
    | none =>
      match jget fields (str "checks") with
      | some (JVal.jarr xs) => xs
      | _ => []
  | _ => []

/-- The `isinstance(check, dict)` guard at line 2706: only an object
entry yields a record. -/
def detailedOfCheck (img tag : Str) : JVal → Option DetailedCheck
  | JVal.jobj fields => some (mkDetailedCheck img tag fields)
  | _ => none

/-- Lines 2705-2718: every check object (and only the objects, per
`isinstance(check, dict)`) becomes one detailed-check record. -/
def extractDetailedChecks (json_data : JVal) (img tag : Str) : List DetailedCheck :=
  (checksToProcess json_data).filterMap (detailedOfCheck img tag)

/-! ## `parse_preflight_output` (source lines 2579-2762) -/

/-- Lines 2584-2588: one output line yields the comma-joined string
`f"{img_name},{m1.group(1)},{m2.group(1)}"` exactly when both
`re.search(r'check=([^ ]+)')` and `re.search(r'result=([^ ]+)')` match. -/
def lineTriple (img_name line : Str) : Option Str :=
  match searchCapture (str "check=") line, searchCapture (str "result=") line with
  | some m1, some m2 => some (img_name ++ str "," ++ m1 ++ str "," ++ m2)
  | _, _ => none

/-- Lines 2581-2588: the `results` list of raw check strings. -/
def basicResults (output img_name : Str) : List Str :=
  (pySplitlines output).filterMap (lineTriple img_name)

/-- Python `d[k] = v` on a dictionary modelled as an association list:
overwrite the existing binding or append a new one. -/
def dictSet (m : List (Str × Str)) (k v : Str) : List (Str × Str) :=
  if (m.find? (fun p => p.1 == k)).isSome then
    m.map (fun p => if p.1 == k then (k, v) else p)
  else m ++ [(k, v)]

/-- Python `d.get(k, default)` on the same association lists. -/
def dictGetD (m : List (Str × Str)) (k d : Str) : Str :=
  ((m.find? (fun p => p.1 == k)).map (fun p => p.2)).getD d

/-- Line 2740: `":".join(re.findall(r'file=([^ ]+)', log_content))`. -/
def joinedFiles (lc : Str) : Str :=
  List.intercalate (str ":") (findallCapture (str "file=") lc)

/-- Whether one raw result string passes the guard at lines 2735-2738:
at least three comma-separated parts, the test case is `HasModifiedFiles`
and the raw status is `FAILED`. -/
def failedModLine (line : Str) : Bool :=
  let parts := pySplit ',' line
  if parts.length < 3 then false
  else decide (parts.getD 1 [] = str "HasModifiedFiles" ∧ parts.getD 2 [] = str "FAILED")

/-- Whether any raw result string passes that guard. -/
def hasFailedModCheck (results : List Str) : Bool := results.any failedModLine

/-- One iteration of the loop at lines 2729-2743 over the state
`(mod_files_map, mod_status)`.  `logContent` is the content of the
per-task log file, `none` when opening it raises (the `except` branch,
which still sets `mod_status`). -/
def modFilesStep (logContent : Option Str) (acc : List (Str × Str) × Str) (line : Str) :
    List (Str × Str) × Str :=
  let parts := pySplit ',' line
  if parts.length < 3 then acc
  else
    if parts.getD 1 [] = str "HasModifiedFiles" ∧ parts.getD 2 [] = str "FAILED" then
      match logContent with
      | some lc => (dictSet acc.1 (parts.getD 1 []) (joinedFiles lc), str "FAILED")
      | none => (acc.1, str "FAILED")
    else acc

/-- Lines 2725-2743: the `(mod_files_map, mod_status)` pair after the first
loop over `results` (initially `({}, "")`). -/
def modFilesInfo (results : List Str) (logContent : Option Str) : List (Str × Str) × Str :=
  results.foldl (modFilesStep logContent) ([], [])

/-- Lines 2745-2757: the CSV rows.  Each raw result string with at least
three comma-separated parts becomes one row; the status is
`parts[2].replace("ERROR", "NOT_APP")` and the modified-files column is
`mod_files_map.get(test_case, "") if mod_status == "FAILED" else ""`. -/
def csvRowsOf (results : List Str) (tag : Str) (modMap : List (Str × Str)) (modStatus : Str) :
    List CsvRow :=
  results.filterMap (fun line =>
    let parts := pySplit ',' line
    if parts.length < 3 then none
    else
      some { imageName := parts.getD 0 []
             tag := tag
             modFiles := if modStatus = str "FAILED" then dictGetD modMap (parts.getD 1 []) [] else []
             testCase := parts.getD 1 []
             status := pyReplace (str "ERROR") (str "NOT_APP") (parts.getD 2 []) })

/-- The `(results, csv_rows, detailed_checks)` triple returned at line 2762. -/
structure ParseResult where
  results : List Str
  csvRows : List CsvRow
  detailedChecks : List DetailedCheck

/-- `parse_preflight_output` (lines 2579-2762).  `logContent` is the
content of the per-task log file (`none` when opening it raises, handled
by the source's `except` branches).  `jsonData` is the outcome of the
regex-and-`json.loads` discovery of lines 2594-2673: the first embedded
JSON structure recovered from the raw output or the log content, `none`
when nothing parses; the extraction applied to it (lines 2682-2718) is
`extractDetailedChecks`. -/
def parse_preflight_output (output img_name tag : Str) (logContent : Option Str)
    (jsonData : Option JVal) : ParseResult :=
  let results := basicResults output img_name
  let detailed :=
    match jsonData with
    | some jd => extractDetailedChecks jd img_name tag
    | none => []
  let info := modFilesInfo results logContent
  { results := results
    csvRows := csvRowsOf results tag info.1 info.2
    detailedChecks := detailed }

/-- The verdict computation of `scan_single_image` (lines 2848-2862): the
log content is searched with `result:\s*(PASSED|FAILED|NOT_APP)` (default
`NOT_APP`, also used when reading the log raises); whenever that leaves
`NOT_APP`, the combined output is searched with
`Preflight result:\s*(PASSED|FAILED|NOT_APP)`. -/
def computeVerdict (combined_output : Str) (logContent : Option Str) : Str :=
  let verdict :=
    match logContent with
    | some lc =>
      match searchVerdictAfter (str "result:") lc with
      | some v => v
      | none => str "NOT_APP"
    | none => str "NOT_APP"
  if verdict = str "NOT_APP" then
    match searchVerdictAfter (str "Preflight result:") combined_output with
    | some v => v
    | none => verdict
  else verdict

/-! ## `scan_single_image` (source lines 2798-2903) -/

/-- The successful payload of `get_image_details` (lines 2523-2577). -/
structure ImageInfo where
  image_details : Str
  tag : Str
  img_name : Str
  repo_img_tag : Str
  inspect_url : Str
deriving DecidableEq

/-- The external world one `scan_single_image` call observes:
`imageInfo` is the outcome of `get_image_details` (an `error` value stands
for `success: False`, which line 2820 re-raises); `procResult` is the
outcome of `subprocess.run` (an `error` value stands for a spawn
exception, an `ok` value is `(returncode, stdout + stderr)`); `logContent`
is the content of the per-task temporary log file (`none` when a read
raises); `jsonData` is the embedded-JSON discovery outcome, as in
`parse_preflight_output`. -/
structure ScanWorld where
  imageInfo : Except Str ImageInfo
  procResult : Except Str (Int × Str)
  logContent : Option Str
  jsonData : Option JVal

/-- The dictionary `scan_single_image` returns (lines 2874-2893), without
the `elapsed`/`console_output` entries (wall-clock time and terminal
formatting are outside the model). -/
structure ScanOutcome where
  error : Bool
  csv_rows : List CsvRow
  detailed_checks : List DetailedCheck
  image : Str

/-- The argument list of the `preflight` invocation (lines 2823-2828). -/
def preflight_cmd (inspect_url : Str) (authJson : Option Str) : List Str :=
  [str "preflight", str "check", str "container", str "--platform", str "amd64", inspect_url] ++
    (match authJson with
     | some a => [str "-d", a]
     | none => [])

/-- The argument record of a `subprocess.run` call. -/
structure SubprocessCall where
  cmd : List Str
  capture_output : Bool
  text : Bool
  timeout : Option Nat
deriving DecidableEq

/-- The `subprocess.run` call at line 2830:
`subprocess.run(preflight_cmd, capture_output=True, text=True)` — no
`timeout` argument is passed, so the `timeout` field is `none`
(Python's default `timeout=None`, an unbounded wait). -/
def preflight_subprocess_call (inspect_url : Str) (authJson : Option Str) : SubprocessCall :=
  { cmd := preflight_cmd inspect_url authJson
    capture_output := true
    text := true
    timeout := none }

/-- `scan_single_image` (lines 2798-2903).  The `try` body runs
`get_image_details`, the subprocess, `parse_preflight_output` and the
verdict/format steps; any exception (a failed resolution or a spawn
failure) reaches the `except` branch at lines 2883-2893, which returns
`error: True` with empty `csv_rows` and `detailed_checks`.  On a normal
subprocess return the outcome's `error` is `exit_status != 0`. -/
def scan_single_image (image : Str) (authJson : Option Str) (w : ScanWorld) : ScanOutcome :=
  match w.imageInfo with
  | Except.error _ => { error := true, csv_rows := [], detailed_checks := [], image := image }
  | Except.ok info =>
    match w.procResult with
    | Except.error _ => { error := true, csv_rows := [], detailed_checks := [], image := image }
    | Except.ok (exit_status, combined_output) =>
      let p := parse_preflight_output combined_output info.img_name info.tag w.logContent w.jsonData
      { error := exit_status != 0
        csv_rows := p.csvRows
        detailed_checks := p.detailedChecks
        image := image }

/-! ## `scan_images_in_parallel` (source lines 2905-2949) -/

/-- The coordinator's accumulators: `all_scan_data`, `all_detailed_checks`,
`error_occurred` and `count` (lines 2907-2912). -/
structure Agg where
  scanData : List CsvRow
  detailed : List DetailedCheck
  errorOccurred : Bool
  count : Nat

/-- One iteration of the completion-draining loop (lines 2921-2927):
extend the row lists, `or` the failure flag, increment the count. -/
def foldOutcome (a : Agg) (o : ScanOutcome) : Agg :=
  { scanData := a.scanData ++ o.csv_rows
    detailed := a.detailed ++ o.detailed_checks
    errorOccurred := a.errorOccurred || o.error
    count := a.count + 1 }

/-- The aggregate after draining a list of completed outcomes (the
`as_completed` loop visits the outcomes in completion order, which is an
arbitrary permutation of the submitted tasks' outcomes). -/
def aggregate (outs : List ScanOutcome) : Agg :=
  outs.foldl foldOutcome { scanData := [], detailed := [], errorOccurred := false, count := 0 }

/-- The guard at lines 2943-2946: `write_results_to_reports` is called
exactly when `all_scan_data` is non-empty (Python list truthiness). -/
def scan_images_writes_reports (agg : Agg) : Bool := !agg.scanData.isEmpty

/-- `write_and_format_xlsx` (lines 2012-2018): raises
`ValueError("No data to write to XLSX")` on an empty row list; the
success path renders and writes the workbook (file output outside the
model). -/
def write_and_format_xlsx (data : List CsvRow) (detailed_checks : List DetailedCheck) :
    Except Str Unit :=
  if data = [] then Except.error (str "No data to write to XLSX") else Except.ok ()

/-- `write_html_report` (lines 30-35): raises
`ValueError("No data to write to HTML report")` on an empty row list; the
success path renders and writes the HTML file (outside the model). -/
def write_html_report (scan_data : List CsvRow) (detailed_checks : List DetailedCheck) :
    Except Str Unit :=
  if scan_data = [] then Except.error (str "No data to write to HTML report") else Except.ok ()

/-! ## The `PFLT_LOGFILE` environment channel (source lines 2803-2810 and 2894-2903)

`scan_single_image` delivers each task's temporary log path to its
subprocess by mutating the process-wide `os.environ["PFLT_LOGFILE"]`
before `subprocess.run` and restoring the saved value in the `finally`
block.  Under `ThreadPoolExecutor` with parallelism above one, these
steps from different tasks interleave.  The model below makes each task a
three-step program over the shared variable: `pc = 0` saves the old value
and writes its own path (lines 2807-2808), `pc = 1` spawns the subprocess,
which inherits the current shared value (line 2830), `pc = 2` restores the
saved value (lines 2898-2903). -/

/-- One task of the interleaving model. -/
structure EnvTask where
  logPath : Str
  pc : Nat
  saved : Option (Option Str)
  observed : Option (Option Str)
deriving DecidableEq

/-- The shared environment variable plus every task's state. -/
structure EnvSys where
  env : Option Str
  tasks : List EnvTask
deriving DecidableEq

/-- Run one atomic step of task `i`. -/
def taskStep (s : EnvSys) (i : Nat) : EnvSys :=
  match s.tasks[i]? with
  | none => s
  | some t =>
    if t.pc = 0 then
      { env := some t.logPath, tasks := s.tasks.set i { t with pc := 1, saved := some s.env } }
    else if t.pc = 1 then
      { s with tasks := s.tasks.set i { t with pc := 2, observed := some s.env } }
    else if t.pc = 2 then
      { env := t.saved.getD none, tasks := s.tasks.set i { t with pc := 3 } }
    else s

/-- Run a schedule (the sequence of task indices the scheduler picks). -/
def runSchedule (s : EnvSys) : List Nat → EnvSys
  | [] => s
  | i :: rest => runSchedule (taskStep s i) rest

/-- Two concurrent tasks with distinct temporary log paths, before any
step has run. -/
def c2InitSys : EnvSys :=
  { env := none
    tasks := [{ logPath := str "/tmp/taskA.log", pc := 0, saved := none, observed := none },
              { logPath := str "/tmp/taskB.log", pc := 0, saved := none, observed := none }] }

/-! ## Helper lemmas -/

/-- Boolean prefix test versus the declarative decomposition. -/
theorem isPrefixOf_iff_append (p : Str) : ∀ s : Str, p.isPrefixOf s = true ↔ ∃ t, s = p ++ t := by
  induction p with
  | nil => intro s; simp [List.isPrefixOf]
  | cons a as ih =>
    intro s
    cases s with
    | nil => simp [List.isPrefixOf]
    | cons b bs =>
      simp only [List.isPrefixOf, Bool.and_eq_true, beq_iff_eq]
      constructor
      · rintro ⟨rfl, h⟩
        obtain ⟨t, rfl⟩ := (ih bs).1 h
        exact ⟨t, rfl⟩
      · rintro ⟨t, ht⟩
        injection ht with h1 h2
        exact ⟨h1.symm, (ih bs).2 ⟨t, h2⟩⟩

/-- The declarative statement that a line contains the literal `pat`
followed by at least one non-space character (the condition under which
`re.search(pat ++ "([^ ]+)")` matches). -/
def capMatch (pat s : Str) : Prop := ∃ pre c post, s = pre ++ pat ++ c :: post ∧ c ≠ ' '

theorem headCap_iff (pat s : Str) :
    (pat.isPrefixOf s = true ∧ (s.drop pat.length).takeWhile (fun ch => ch ≠ ' ') ≠ []) ↔
      ∃ c post, s = pat ++ c :: post ∧ c ≠ ' ' := by
  constructor
  · rintro ⟨hp, hcap⟩
    obtain ⟨t, rfl⟩ := (isPrefixOf_iff_append pat s).1 hp
    rw [List.drop_left] at hcap
    cases t with
    | nil => simp at hcap
    | cons c post =>
      by_cases hc : c = ' '
      · subst hc; simp [List.takeWhile] at hcap
      · exact ⟨c, post, rfl, hc⟩
  · rintro ⟨c, post, rfl, hc⟩
    refine ⟨(isPrefixOf_iff_append pat _).2 ⟨c :: post, rfl⟩, ?_⟩
    rw [List.drop_left]
    simp [List.takeWhile, hc]

theorem capMatch_cons (pat : Str) (a : Char) (rest : Str) :
    capMatch pat (a :: rest) ↔
      (∃ c post, a :: rest = pat ++ c :: post ∧ c ≠ ' ') ∨ capMatch pat rest := by
  constructor
  · rintro ⟨pre, c, post, heq, hc⟩
    cases pre with
    | nil => exact Or.inl ⟨c, post, by simpa using heq, hc⟩
    | cons p ps =>
      injection heq with h1 h2
      exact Or.inr ⟨ps, c, post, h2, hc⟩
  · rintro (⟨c, post, heq, hc⟩ | ⟨pre, c, post, heq, hc⟩)
    · exact ⟨[], c, post, by simpa using heq, hc⟩
    · exact ⟨a :: pre, c, post, by rw [heq]; rfl, hc⟩

/-- Unfolding equation of `searchCapture` on a non-empty string. -/
theorem searchCapture_cons (pat : Str) (a : Char) (rest : Str) :
    searchCapture pat (a :: rest) =
      if pat.isPrefixOf (a :: rest) then
        (if ((a :: rest).drop pat.length).takeWhile (fun ch => ch ≠ ' ') = []
         then searchCapture pat rest
         else some (((a :: rest).drop pat.length).takeWhile (fun ch => ch ≠ ' ')))
      else searchCapture pat rest := rfl

/-- `searchCapture` succeeds exactly on the lines the declarative
decomposition describes. -/
theorem searchCapture_isSome_iff (pat : Str) :
    ∀ s : Str, (searchCapture pat s).isSome = true ↔ capMatch pat s := by
  intro s
  induction s with
  | nil =>
    simp only [searchCapture, Option.isSome_none, capMatch]
    constructor
    · intro h; exact absurd h (by simp)
    · rintro ⟨pre, c, post, heq, -⟩
      have := congrArg List.length heq
      simp at this
      omega
  | cons a rest ih =>
    rw [capMatch_cons, ← headCap_iff]
    by_cases hp : pat.isPrefixOf (a :: rest) = true
    · by_cases hcap : ((a :: rest).drop pat.length).takeWhile (fun ch => ch ≠ ' ') = []
      · rw [searchCapture_cons, if_pos hp, if_pos hcap, ih]
        exact ⟨fun h => Or.inr h, fun h => h.elim (fun hh => absurd hcap hh.2) id⟩
      · rw [searchCapture_cons, if_pos hp, if_neg hcap]
        exact ⟨fun _ => Or.inl ⟨hp, hcap⟩, fun _ => rfl⟩
    · rw [searchCapture_cons, if_neg hp, ih]
      exact ⟨fun h => Or.inr h, fun h => h.elim (fun hh => absurd hh.1 hp) id⟩

/-- A line yields a raw triple exactly when both token searches succeed. -/
theorem lineTriple_isSome_iff (img line : Str) :
    (lineTriple img line).isSome = true ↔
      capMatch (str "check=") line ∧ capMatch (str "result=") line := by
  rw [← searchCapture_isSome_iff, ← searchCapture_isSome_iff]
  unfold lineTriple
  cases h1 : searchCapture (str "check=") line <;>
    cases h2 : searchCapture (str "result=") line <;> simp

/-- No output line matching both tokens means no raw results. -/
theorem basicResults_eq_nil (out img : Str)
    (h : ∀ line ∈ pySplitlines out,
      searchCapture (str "check=") line = none ∨ searchCapture (str "result=") line = none) :
    basicResults out img = [] := by
  unfold basicResults
  have hgen : ∀ lines : List Str,
      (∀ line ∈ lines,
        searchCapture (str "check=") line = none ∨ searchCapture (str "result=") line = none) →
      lines.filterMap (lineTriple img) = [] := by
    intro lines
    induction lines with
    | nil => intro _; rfl
    | cons line rest ih =>
      intro hl
      have hline := hl line (List.mem_cons_self _ _)
      have htriple : lineTriple img line = none := by
        unfold lineTriple
        rcases hline with h' | h'
        · rw [h']
        · rw [h']
          cases searchCapture (str "check=") line <;> rfl
      rw [List.filterMap_cons, htriple]
      exact ih (fun l hlm => hl l (List.mem_cons_of_mem _ hlm))
  exact hgen _ h

/-- The completion-draining fold counts every outcome once. -/
theorem foldl_foldOutcome_count (outs : List ScanOutcome) :
    ∀ a : Agg, (outs.foldl foldOutcome a).count = a.count + outs.length := by
  induction outs with
  | nil => intro a; simp
  | cons o rest ih =>
    intro a
    rw [List.foldl_cons, ih]
    simp [foldOutcome]
    omega

/-- The completion-draining fold ors every outcome's error flag. -/
theorem foldl_foldOutcome_error (outs : List ScanOutcome) :
    ∀ a : Agg, (outs.foldl foldOutcome a).errorOccurred =
      (a.errorOccurred || outs.any (fun o => o.error)) := by
  induction outs with
  | nil => intro a; simp
  | cons o rest ih =>
    intro a
    rw [List.foldl_cons, ih]
    simp [foldOutcome, Bool.or_assoc]

/-- A non-matching result string leaves the `(mod_files_map, mod_status)`
state unchanged. -/
theorem modFilesStep_of_not_failed (logContent : Option Str) (acc : List (Str × Str) × Str)
    (line : Str) (h : failedModLine line = false) : modFilesStep logContent acc line = acc := by
  unfold modFilesStep
  unfold failedModLine at h
  by_cases h3 : (pySplit ',' line).length < 3
  · rw [if_pos h3]
  · rw [if_neg h3] at h ⊢
    rw [if_neg (of_decide_eq_false h)]

/-- A matching result string (with readable log content) stores the joined
file list under `HasModifiedFiles` and sets `mod_status`. -/
theorem modFilesStep_of_failed (lc : Str) (acc : List (Str × Str) × Str) (line : Str)
    (h : failedModLine line = true) :
    modFilesStep (some lc) acc line =
      (dictSet acc.1 (str "HasModifiedFiles") (joinedFiles lc), str "FAILED") := by
  unfold modFilesStep
  unfold failedModLine at h
  by_cases h3 : (pySplit ',' line).length < 3
  · rw [if_pos h3] at h; exact absurd h (by simp)
  · rw [if_neg h3] at h ⊢
    have hc := of_decide_eq_true h
    rw [if_pos hc, hc.1]

/-- A matching result string with an unreadable log file only sets
`mod_status`. -/
theorem modFilesStep_none_of_failed (acc : List (Str × Str) × Str) (line : Str)
    (h : failedModLine line = true) : modFilesStep none acc line = (acc.1, str "FAILED") := by
  unfold modFilesStep
  unfold failedModLine at h
  by_cases h3 : (pySplit ',' line).length < 3
  · rw [if_pos h3] at h; exact absurd h (by simp)
  · rw [if_neg h3] at h ⊢
    rw [if_pos (of_decide_eq_true h)]

/-- `mod_status` after the first loop: `"FAILED"` exactly when some raw
result is a failed `HasModifiedFiles`. -/
theorem modFilesFold_snd (logContent : Option Str) (results : List Str) :
    ∀ acc : List (Str × Str) × Str,
      (results.foldl (modFilesStep logContent) acc).2 =
        (if results.any failedModLine = true then str "FAILED" else acc.2) := by
  induction results with
  | nil => intro acc; simp
  | cons line rest ih =>
    intro acc
    rw [List.foldl_cons, List.any_cons]
    by_cases hf : failedModLine line = true
    · have hstep : ((modFilesStep logContent acc line).2 = str "FAILED" ∧
          (rest.foldl (modFilesStep logContent) (modFilesStep logContent acc line)).2 =
            (if rest.any failedModLine = true then str "FAILED"
             else (modFilesStep logContent acc line).2)) := by
        cases logContent with
        | none => exact ⟨by rw [modFilesStep_none_of_failed acc line hf], ih _⟩
        | some lc => exact ⟨by rw [modFilesStep_of_failed lc acc line hf], ih _⟩
      rw [hstep.2, hstep.1, hf]
      cases rest.any failedModLine <;> simp
    · have hf' : failedModLine line = false := by
        cases h : failedModLine line
        · rfl
        · exact absurd h hf
      rw [modFilesStep_of_not_failed logContent acc line hf', ih, hf']
      simp

/-- Every binding the first loop ever stores maps `HasModifiedFiles` to the
joined file list. -/
theorem modFilesFold_fst_mem (lc : Str) (results : List Str) :
    ∀ acc : List (Str × Str) × Str,
      (∀ kv ∈ acc.1, kv = (str "HasModifiedFiles", joinedFiles lc)) →
      ∀ kv ∈ (results.foldl (modFilesStep (some lc)) acc).1,
        kv = (str "HasModifiedFiles", joinedFiles lc) := by
  induction results with
  | nil => intro acc h; exact h
  | cons line rest ih =>
    intro acc h
    by_cases hf : failedModLine line = true
    · rw [List.foldl_cons, modFilesStep_of_failed lc acc line hf]
      refine ih _ (fun kv hkv => ?_)
      unfold dictSet at hkv
      split at hkv
      · obtain ⟨p, hp, heq⟩ := List.mem_map.1 hkv
        split at heq
        · exact heq.symm
        · exact heq ▸ h p hp
      · rcases List.mem_append.1 hkv with h' | h'
        · exact h kv h'
        · simpa using h'
    · have hf' : failedModLine line = false := by
        cases hx : failedModLine line
        · rfl
        · exact absurd hx hf
      rw [List.foldl_cons, modFilesStep_of_not_failed _ acc line hf']
      exact ih acc h

/-- `dictSet` never empties a dictionary. -/
theorem dictSet_ne_nil (m : List (Str × Str)) (k v : Str) : dictSet m k v ≠ [] := by
  unfold dictSet
  by_cases h : (m.find? (fun p => p.1 == k)).isSome = true
  · rw [if_pos h]
    cases m with
    | nil => simp [List.find?] at h
    | cons a t => simp
  · rw [if_neg h]
    simp

/-- Once some raw result is a failed `HasModifiedFiles` (and the log is
readable), `mod_files_map` is non-empty. -/
theorem modFilesFold_fst_ne_nil (lc : Str) (results : List Str) :
    ∀ acc : List (Str × Str) × Str,
      (results.any failedModLine = true ∨ acc.1 ≠ []) →
      (results.foldl (modFilesStep (some lc)) acc).1 ≠ [] := by
  induction results with
  | nil =>
    intro acc h
    rcases h with h | h
    · simp at h
    · exact h
  | cons line rest ih =>
    intro acc h
    by_cases hf : failedModLine line = true
    · rw [List.foldl_cons, modFilesStep_of_failed lc acc line hf]
      exact ih _ (Or.inr (dictSet_ne_nil _ _ _))
    · have hf' : failedModLine line = false := by
        cases hx : failedModLine line
        · rfl
        · exact absurd hx hf
      rw [List.foldl_cons, modFilesStep_of_not_failed _ acc line hf']
      refine ih acc ?_
      rcases h with h | h
      · rw [List.any_cons, hf', Bool.false_or] at h
        exact Or.inl h
      · exact Or.inr h

/-- Lookup in a dictionary all of whose bindings are one fixed pair. -/
theorem dictGetD_const (k0 v0 : Str) (m : List (Str × Str))
    (hm : ∀ kv ∈ m, kv = (k0, v0)) (hne : m ≠ []) (tc : Str) :
    dictGetD m tc [] = (if tc = k0 then v0 else []) := by
  cases m with
  | nil => exact absurd rfl hne
  | cons a t =>
    have ha : a = (k0, v0) := hm a (List.mem_cons_self _ _)
    subst ha
    by_cases h : tc = k0
    · subst h
      simp [dictGetD, List.find?]
    · have hfind : List.find? (fun p => p.1 == tc) ((k0, v0) :: t) = none := by
        rw [List.find?_eq_none]
        intro x hx
        rw [hm x hx]
        simp
        exact fun hk => h hk.symm
      simp [dictGetD, hfind, h]

/-- Every CSV row's modified-files column is the `mod_files_map` lookup
guarded by `mod_status`. -/
theorem csvRowsOf_mem_modFiles (results : List Str) (tag : Str) (mm : List (Str × Str))
    (ms : Str) (row : CsvRow) (h : row ∈ csvRowsOf results tag mm ms) :
    row.modFiles = (if ms = str "FAILED" then dictGetD mm row.testCase [] else []) := by
  rw [csvRowsOf] at h
  obtain ⟨line, hline, heq⟩ := List.mem_filterMap.1 h
  by_cases h3 : (pySplit ',' line).length < 3
  · simp only [h3, if_pos, if_true] at heq
    exact absurd heq (by simp [h3])
  · simp only [h3, if_false] at heq
    injection heq with heq'
    rw [← heq']

/-- When every entry is an object, the detailed-check extraction keeps
exactly one record per entry. -/
theorem filterMap_isObj_length (img tag : Str) (l : List JVal) (h : l.all isObjCheck = true) :
    (l.filterMap (detailedOfCheck img tag)).length = l.length := by
  induction l with
  | nil => rfl
  | cons c rest ih =>
    rw [List.all_cons, Bool.and_eq_true] at h
    cases c with
    | jobj fields => simp [List.filterMap_cons, detailedOfCheck, ih h.2]
    | jnull => exact absurd h.1 (by simp [isObjCheck])
    | jbool b => exact absurd h.1 (by simp [isObjCheck])
    | jnum n => exact absurd h.1 (by simp [isObjCheck])
    | jstr s => exact absurd h.1 (by simp [isObjCheck])
    | jarr xs => exact absurd h.1 (by simp [isObjCheck])

/-- Every extracted detailed-check record carries the task's name and tag. -/
theorem extractDetailedChecks_tags (jd : JVal) (img tag : Str) :
    ∀ d ∈ extractDetailedChecks jd img tag, d.image_name = img ∧ d.image_tag = tag := by
  intro d hd
  rw [extractDetailedChecks] at hd
  obtain ⟨c, hc, heq⟩ := List.mem_filterMap.1 hd
  cases c with
  | jobj fields =>
    have heq2 : some (mkDetailedCheck img tag fields) = some d := heq
    injection heq2 with heq3
    rw [← heq3]
    exact ⟨rfl, rfl⟩
  | jnull => exact Option.noConfusion (show (none : Option DetailedCheck) = some d from heq)
  | jbool b =>
    exact Option.noConfusion (show (none : Option DetailedCheck) = some d from heq)
  | jnum n => exact Option.noConfusion (show (none : Option DetailedCheck) = some d from heq)
  | jstr s => exact Option.noConfusion (show (none : Option DetailedCheck) = some d from heq)
  | jarr xs =>
    exact Option.noConfusion (show (none : Option DetailedCheck) = some d from heq)

/-! ## Claim theorems -/

/-- Claim C1, counterexample: a raw status of `SKIPPED` (neither `PASSED`
nor `FAILED`) is written to the CSV row unchanged, not normalized to
`NOT_APPLICABLE` (nor to the code's `NOT_APP` spelling), so the claimed
three-value normalization fails. -/
theorem C1_skipped_passthrough_cx :
    (parse_preflight_output (str "check=HasLicense result=SKIPPED") (str "img") (str "1.0")
        none none).csvRows =
      [{ imageName := str "img", tag := str "1.0", modFiles := [],
         testCase := str "HasLicense", status := str "SKIPPED" }] ∧
    str "SKIPPED" ≠ str "PASSED" ∧ str "SKIPPED" ≠ str "FAILED" ∧
    str "SKIPPED" ≠ str "NOT_APPLICABLE" ∧ str "SKIPPED" ≠ str "NOT_APP" := by
  decide

/-- Claim C1, amended: the CSV status is the raw status with every
occurrence of the substring `ERROR` replaced by `NOT_APP` (the code's
spelling of NOT_APPLICABLE); a raw status of `ERROR` therefore becomes
`NOT_APP`, never `FAILED`, but any other label that is not `PASSED` or
`FAILED` is written through unchanged rather than normalized. -/
theorem C1_status_normalization :
    (∀ (results : List Str) (tag : Str) (mm : List (Str × Str)) (ms : Str),
        (csvRowsOf results tag mm ms).map (fun r => r.status) =
          results.filterMap (fun line =>
            if (pySplit ',' line).length < 3 then none
            else some (pyReplace (str "ERROR") (str "NOT_APP") ((pySplit ',' line).getD 2 [])))) ∧
    pyReplace (str "ERROR") (str "NOT_APP") (str "ERROR") = str "NOT_APP" ∧
    (parse_preflight_output (str "check=SomeCheck result=ERROR") (str "img") (str "1.0")
        none none).csvRows =
      [{ imageName := str "img", tag := str "1.0", modFiles := [],
         testCase := str "SomeCheck", status := str "NOT_APP" }] ∧
    str "NOT_APP" ≠ str "FAILED" := by
  refine ⟨fun results tag mm ms => ?_, by decide, by decide, by decide⟩
  rw [csvRowsOf, List.map_filterMap]
  congr 1
  funext line
  by_cases h3 : (pySplit ',' line).length < 3
  · simp [h3]
  · simp [h3]

/-- Claim C2: the per-task log path travels through the process-wide
`os.environ["PFLT_LOGFILE"]`, set before `subprocess.run` and restored in
`finally`.  Under the interleaving semantics of two concurrent tasks this
is observable: with schedule `[0, 1, 0]` task 0's subprocess inherits task
1's log path, and with schedule `[0, 1, 0, 0, 1, 1]` task 1's subprocess
inherits no `PFLT_LOGFILE` at all while the variable ends restored to task
0's stale path.  This refutes the claimed per-invocation exclusive
channel. -/
theorem C2_pflt_logfile_race :
    (((runSchedule c2InitSys [0, 1, 0]).tasks[0]?).map EnvTask.observed =
        some (some (some (str "/tmp/taskB.log")))) ∧
    (((runSchedule c2InitSys [0, 1, 0, 0, 1, 1]).tasks[1]?).map EnvTask.observed =
        some (some none)) ∧
    ((runSchedule c2InitSys [0, 1, 0, 0, 1, 1]).env = some (str "/tmp/taskA.log")) ∧
    str "/tmp/taskB.log" ≠ str "/tmp/taskA.log" := by
  decide

/-- Claim C3: `scan_single_image` is total (it returns a `ScanOutcome` for
every world, by construction); any exception in the invoke sequence (a
failed `get_image_details` or a `subprocess.run` spawn failure) yields an
outcome with the error flag true and empty `csv_rows` and
`detailed_checks`; and a subprocess that exits non-zero with no matching
`check=`/`result=` line in its output yields an outcome with the error
flag true and empty `csv_rows`. -/
theorem C3_worker_isolation (image : Str) (auth : Option Str) (w : ScanWorld) :
    ((w.imageInfo.isOk = false ∨ w.procResult.isOk = false) →
      (scan_single_image image auth w).error = true ∧
      (scan_single_image image auth w).csv_rows = [] ∧
      (scan_single_image image auth w).detailed_checks = []) ∧
    (∀ (exitCode : Int) (out : Str), w.procResult = Except.ok (exitCode, out) → exitCode ≠ 0 →
      (∀ line ∈ pySplitlines out,
        searchCapture (str "check=") line = none ∨ searchCapture (str "result=") line = none) →
      (scan_single_image image auth w).error = true ∧
      (scan_single_image image auth w).csv_rows = []) := by
  constructor
  · intro h
    cases hi : w.imageInfo with
    | error e => simp [scan_single_image, hi]
    | ok info =>
      cases hpr : w.procResult with
      | error e => simp [scan_single_image, hi, hpr]
      | ok pr =>
        rw [hi, hpr] at h
        rcases h with h | h <;> simp [Except.isOk, Except.toBool] at h
  · intro exitCode out hpr hexit hnolines
    cases hi : w.imageInfo with
    | error e => simp [scan_single_image, hi]
    | ok info =>
      rw [scan_single_image, hi, hpr]
      refine ⟨by simpa using hexit, ?_⟩
      simp only [parse_preflight_output]
      rw [basicResults_eq_nil out info.img_name hnolines]
      rfl

/-- Claim C3, witness: a world whose subprocess spawn fails produces the
error outcome with empty rows. -/
theorem C3_worker_isolation_witness :
    (scan_single_image (str "myimg") none
      { imageInfo := Except.error (str "resolution failed"),
        procResult := Except.error (str "spawn failed"),
        logContent := none, jsonData := none }).error = true ∧
    (scan_single_image (str "myimg") none
      { imageInfo := Except.error (str "resolution failed"),
        procResult := Except.error (str "spawn failed"),
        logContent := none, jsonData := none }).csv_rows = [] ∧
    (scan_single_image (str "myimg") none
      { imageInfo := Except.error (str "resolution failed"),
        procResult := Except.error (str "spawn failed"),
        logContent := none, jsonData := none }).detailed_checks = [] :=
  (C3_worker_isolation (str "myimg") none
    { imageInfo := Except.error (str "resolution failed"),
      procResult := Except.error (str "spawn failed"),
      logContent := none, jsonData := none }).1 (Or.inl rfl)

/-- Claim C4, counterexample: the per-task log contains a verdict line
(`result: NOT_APPLICABLE`, whose `NOT_APP` prefix the code's pattern
captures), yet the combined output is still searched and its
`Preflight result: FAILED` wins — the claim says the output is consulted
only when the log has no verdict line, which would leave the verdict
NOT_APPLICABLE here. -/
theorem C4_verdict_cx :
    searchVerdictAfter (str "result:") (str "result: NOT_APPLICABLE") = some (str "NOT_APP") ∧
    computeVerdict (str "Preflight result: FAILED") (some (str "result: NOT_APPLICABLE")) =
      str "FAILED" ∧
    str "FAILED" ≠ str "NOT_APP" := by
  decide

/-- Claim C4, amended: the log is searched first and a `PASSED`/`FAILED`
verdict found there is final; the combined output is searched not only
when the log has no verdict line but whenever the log search leaves
`NOT_APP` (including an unreadable log); if the output also has no
`Preflight result:` line, the verdict defaults to `NOT_APP`; and the
verdict is a function of the log and output text only — it is never
recomputed from the per-check rows (a `FAILED` row coexists with a
`NOT_APP` verdict). -/
theorem C4_verdict_amended :
    (∀ (out lc v : Str), searchVerdictAfter (str "result:") lc = some v →
        v ≠ str "NOT_APP" → computeVerdict out (some lc) = v) ∧
    (∀ (out lc : Str),
        (searchVerdictAfter (str "result:") lc = none ∨
          searchVerdictAfter (str "result:") lc = some (str "NOT_APP")) →
        computeVerdict out (some lc) =
          (searchVerdictAfter (str "Preflight result:") out).getD (str "NOT_APP")) ∧
    (∀ out : Str, computeVerdict out none =
        (searchVerdictAfter (str "Preflight result:") out).getD (str "NOT_APP")) ∧
    ((parse_preflight_output (str "check=RunAsNonRoot result=FAILED") (str "img") (str "1.0")
        (some []) none).csvRows.map (fun r => r.status) = [str "FAILED"] ∧
      computeVerdict (str "check=RunAsNonRoot result=FAILED") (some []) = str "NOT_APP") := by
  refine ⟨fun out lc v h hv => ?_, fun out lc h => ?_, fun out => ?_, by decide, by decide⟩
  · rw [computeVerdict]
    simp only [h]
    rw [if_neg hv]
  · rcases h with h | h <;> simp only [computeVerdict, h, if_true] <;>
      cases ho : searchVerdictAfter (str "Preflight result:") out <;> simp [ho]
  · simp only [computeVerdict, if_true]
    cases ho : searchVerdictAfter (str "Preflight result:") out <;> simp [ho]

/-- Claim C5: after draining every completed outcome (in any completion
order), the coordinator's image count equals the number of submitted
tasks regardless of failures, and the run-level failure flag is true
exactly when some outcome's error flag was set.  Termination with no
early exit is the fold over the complete outcome list. -/
theorem C5_coordinator_aggregate (images : List Str) (auth : Option Str)
    (worlds : Str → ScanWorld) (completed : List ScanOutcome)
    (hperm : completed.Perm (images.map (fun i => scan_single_image i auth (worlds i)))) :
    (aggregate completed).count = images.length ∧
    ((aggregate completed).errorOccurred = true ↔ ∃ o ∈ completed, o.error = true) := by
  constructor
  · rw [aggregate, foldl_foldOutcome_count]
    have := hperm.length_eq
    rw [List.length_map] at this
    simpa using this
  · rw [aggregate, foldl_foldOutcome_error]
    simp [List.any_eq_true]

/-- Claim C5, witness: two submitted tasks whose worlds both fail still
count as two scanned images, and the failure flag is set. -/
theorem C5_coordinator_aggregate_witness :
    (aggregate (List.map (fun i => scan_single_image i none
        { imageInfo := Except.error (str "resolution failed"),
          procResult := Except.error (str "spawn failed"),
          logContent := none, jsonData := none })
      [str "imgA", str "imgB"])).count = 2 ∧
    (aggregate (List.map (fun i => scan_single_image i none
        { imageInfo := Except.error (str "resolution failed"),
          procResult := Except.error (str "spawn failed"),
          logContent := none, jsonData := none })
      [str "imgA", str "imgB"])).errorOccurred = true := by
  have h := C5_coordinator_aggregate [str "imgA", str "imgB"] none
    (fun _ => { imageInfo := Except.error (str "resolution failed"),
                procResult := Except.error (str "spawn failed"),
                logContent := none, jsonData := none })
    (List.map (fun i => scan_single_image i none
        { imageInfo := Except.error (str "resolution failed"),
          procResult := Except.error (str "spawn failed"),
          logContent := none, jsonData := none })
      [str "imgA", str "imgB"])
    (List.Perm.refl _)
  refine ⟨h.1, h.2.mpr ⟨scan_single_image (str "imgA") none
      { imageInfo := Except.error (str "resolution failed"),
        procResult := Except.error (str "spawn failed"),
        logContent := none, jsonData := none }, ?_, rfl⟩⟩
  exact List.mem_map_of_mem _ (List.mem_cons_self _ _)

/-- Claim C6: when some raw check is a FAILED `HasModifiedFiles`, every
CSV row for `HasModifiedFiles` carries the colon-join of the `file=`
captures from the per-task log and every other row's modified-files field
is empty; when no such raw check exists, the field is empty on every row.
The claimed example log yields `/etc/passwd:/etc/shadow`. -/
theorem C6_modified_files :
    (∀ (output img tag lc : Str) (row : CsvRow),
        row ∈ (parse_preflight_output output img tag (some lc) none).csvRows →
        ((hasFailedModCheck (basicResults output img) = true →
            row.modFiles =
              (if row.testCase = str "HasModifiedFiles" then joinedFiles lc else [])) ∧
          (hasFailedModCheck (basicResults output img) = false → row.modFiles = []))) ∧
    (parse_preflight_output (str "check=HasModifiedFiles result=FAILED") (str "img") (str "1.0")
        (some (str "file=/etc/passwd file=/etc/shadow")) none).csvRows =
      [{ imageName := str "img", tag := str "1.0", modFiles := str "/etc/passwd:/etc/shadow",
         testCase := str "HasModifiedFiles", status := str "FAILED" }] ∧
    joinedFiles (str "file=/etc/passwd file=/etc/shadow") = str "/etc/passwd:/etc/shadow" := by
  refine ⟨fun output img tag lc row hrow => ?_, by decide, by decide⟩
  simp only [parse_preflight_output] at hrow
  have hmf := csvRowsOf_mem_modFiles _ _ _ _ row hrow
  constructor
  · intro hfail
    have hsnd : (modFilesInfo (basicResults output img) (some lc)).2 = str "FAILED" := by
      rw [modFilesInfo, modFilesFold_snd]
      rw [hasFailedModCheck] at hfail
      rw [if_pos hfail]
    have hmem : ∀ kv ∈ (modFilesInfo (basicResults output img) (some lc)).1,
        kv = (str "HasModifiedFiles", joinedFiles lc) :=
      modFilesFold_fst_mem lc (basicResults output img) ([], []) (by intro kv hkv; simp at hkv)
    have hne : (modFilesInfo (basicResults output img) (some lc)).1 ≠ [] :=
      modFilesFold_fst_ne_nil lc (basicResults output img) ([], [])
        (Or.inl (by rw [hasFailedModCheck] at hfail; exact hfail))
    rw [hmf, hsnd, if_pos rfl, dictGetD_const (str "HasModifiedFiles") (joinedFiles lc) _ hmem hne]
  · intro hfail
    have hsnd : (modFilesInfo (basicResults output img) (some lc)).2 = [] := by
      rw [modFilesInfo, modFilesFold_snd]
      rw [hasFailedModCheck] at hfail
      rw [hfail]
      simp
    rw [hmf, hsnd, if_neg (by decide)]

/-- Claim C7, counterexample: the line `recheck=Config result=PASSED` has
no whitespace-separated token whose key is exactly `check` (its tokens are
`recheck=Config` and `result=PASSED`), yet the code's substring search
`re.search(r'check=([^ ]+)')` matches inside `recheck=Config` and yields
the triple `img,Config,PASSED` — refuting the claimed "only when the line
contains a check= token with key exactly check". -/
theorem C7_substring_match_cx :
    basicResults (str "recheck=Config result=PASSED") (str "img") = [str "img,Config,PASSED"] ∧
    specTokenMatch (str "check=") (str "recheck=Config result=PASSED") = false := by
  decide

/-- Claim C7, amended: a line yields exactly one raw triple if and only if
it contains the substring `check=` followed by at least one non-space
character and the substring `result=` followed by at least one non-space
character, anywhere in the line (also inside a longer token such as
`recheck=Config`), order-independent; lines lacking either are ignored
without error, and the two example lines yield exactly two rows with
statuses PASSED and FAILED and empty modified-files fields. -/
theorem C7_line_extraction_amended :
    (∀ img line : Str, (lineTriple img line).isSome = true ↔
        (capMatch (str "check=") line ∧ capMatch (str "result=") line)) ∧
    (parse_preflight_output
        (str "check=HasLicense result=PASSED\ncheck=RunAsNonRoot result=FAILED")
        (str "img") (str "1.0") none none).csvRows =
      [{ imageName := str "img", tag := str "1.0", modFiles := [],
         testCase := str "HasLicense", status := str "PASSED" },
       { imageName := str "img", tag := str "1.0", modFiles := [],
         testCase := str "RunAsNonRoot", status := str "FAILED" }] :=
  ⟨lineTriple_isSome_iff, by decide⟩

/-- Claim C8: when the recovered JSON has a `results` object (its
`passed`/`failed`/`errors` fields absent or arrays, every entry an
object), the extraction yields exactly one detailed-check record per
entry across the three arrays, each tagged with the task's name and tag,
and every missing optional field of a record defaults to the empty
string. -/
theorem C8_detailed_checks (fields rf : List (Str × JVal)) (img tag : Str)
    (hres : jget fields (str "results") = some (JVal.jobj rf))
    (hp : optArr (jget rf (str "passed")) = true)
    (hf : optArr (jget rf (str "failed")) = true)
    (he : optArr (jget rf (str "errors")) = true)
    (hobj : (arrOf (jget rf (str "passed")) ++ arrOf (jget rf (str "failed")) ++
        arrOf (jget rf (str "errors"))).all isObjCheck = true) :
    (extractDetailedChecks (JVal.jobj fields) img tag).length =
      (arrOf (jget rf (str "passed"))).length + (arrOf (jget rf (str "failed"))).length +
        (arrOf (jget rf (str "errors"))).length ∧
    (∀ d ∈ extractDetailedChecks (JVal.jobj fields) img tag,
        d.image_name = img ∧ d.image_tag = tag) ∧
    (∀ check : List (Str × JVal),
      (jget check (str "name") = none → (mkDetailedCheck img tag check).name = JVal.jstr []) ∧
      (jget check (str "elapsed_time") = none →
        (mkDetailedCheck img tag check).elapsed_time = []) ∧
      (jget check (str "description") = none →
        (mkDetailedCheck img tag check).description = JVal.jstr []) ∧
      (jget check (str "help") = none → (mkDetailedCheck img tag check).help = JVal.jstr []) ∧
      (jget check (str "suggestion") = none →
        (mkDetailedCheck img tag check).suggestion = JVal.jstr []) ∧
      (jget check (str "knowledgebase_url") = none →
        (mkDetailedCheck img tag check).knowledgebase_url = JVal.jstr []) ∧
      (jget check (str "check_url") = none →
        (mkDetailedCheck img tag check).check_url = JVal.jstr [])) := by
  refine ⟨?_, extractDetailedChecks_tags _ img tag, ?_⟩
  · rw [extractDetailedChecks, checksToProcess, hres, filterMap_isObj_length img tag _ hobj]
    simp [Nat.add_assoc]
  · intro check
    refine ⟨fun h => ?_, fun h => ?_, fun h => ?_, fun h => ?_, fun h => ?_, fun h => ?_,
      fun h => ?_⟩ <;> simp [mkDetailedCheck, h, pyStr]

/-- Claim C8, witness: a `results` object with 3 passed and 2 failed
entries (and no `errors` array) yields exactly 5 detailed-check records. -/
theorem C8_detailed_checks_witness :
    (extractDetailedChecks (JVal.jobj [(str "results", JVal.jobj
        [(str "passed", JVal.jarr [JVal.jobj [(str "name", JVal.jstr (str "HasLicense"))],
            JVal.jobj [], JVal.jobj []]),
         (str "failed", JVal.jarr [JVal.jobj [], JVal.jobj []])])])
      (str "img") (str "1.0")).length = 5 := by
  have h := C8_detailed_checks
    [(str "results", JVal.jobj
        [(str "passed", JVal.jarr [JVal.jobj [(str "name", JVal.jstr (str "HasLicense"))],
            JVal.jobj [], JVal.jobj []]),
         (str "failed", JVal.jarr [JVal.jobj [], JVal.jobj []])])]
    [(str "passed", JVal.jarr [JVal.jobj [(str "name", JVal.jstr (str "HasLicense"))],
        JVal.jobj [], JVal.jobj []]),
     (str "failed", JVal.jarr [JVal.jobj [], JVal.jobj []])]
    (str "img") (str "1.0") rfl rfl rfl rfl rfl
  exact h.1

/-- Claim C9, counterexample: the `subprocess.run` invocation of the
scanning tool carries no timeout at all (`timeout` is `None`), refuting
the claimed per-task configurable upper bound. -/
theorem C9_timeout_cx :
    (preflight_subprocess_call (str "quay.io/ns/app:1.0") none).timeout.isSome = false := rfl

/-- Claim C9, amended: no subprocess invocation is bounded by a timeout —
`subprocess.run` is called without a `timeout` argument, so a hung tool
blocks its worker indefinitely and no synthesized-timeout failure path
exists; an exception raised by the invocation (e.g. a spawn failure) is
still converted into a failed outcome for that task alone. -/
theorem C9_no_timeout_amended :
    (∀ (inspect_url : Str) (authJson : Option Str),
        (preflight_subprocess_call inspect_url authJson).timeout = none) ∧
    (∀ (image : Str) (authJson : Option Str) (w : ScanWorld) (e : Str),
        w.procResult = Except.error e →
        (scan_single_image image authJson w).error = true ∧
        (scan_single_image image authJson w).csv_rows = []) := by
  refine ⟨fun _ _ => rfl, fun image authJson w e h => ?_⟩
  cases hi : w.imageInfo with
  | error e' => simp [scan_single_image, hi]
  | ok info => simp [scan_single_image, hi, h]

/-- Claim C9, witness for the amended statement at a concrete input. -/
theorem C9_no_timeout_amended_witness :
    (preflight_subprocess_call (str "registry.example/ns/app:2.0") none).timeout = none ∧
    (scan_single_image (str "app") none
      ⟨Except.ok ⟨str "app", str "2.0", str "app", str "app:2.0",
        str "registry.example/ns/app:2.0"⟩,
       Except.error (str "FileNotFoundError"), none, none⟩).error = true :=
  ⟨C9_no_timeout_amended.1 (str "registry.example/ns/app:2.0") none,
   (C9_no_timeout_amended.2 (str "app") none
      ⟨Except.ok ⟨str "app", str "2.0", str "app", str "app:2.0",
        str "registry.example/ns/app:2.0"⟩,
       Except.error (str "FileNotFoundError"), none, none⟩
      (str "FileNotFoundError") rfl).1⟩

/-- Claim C10: on an empty aggregated dataset the coordinator's guard
skips report writing (so neither writer runs and nothing is raised),
while both report writers, called directly on an empty row list, raise
`ValueError`. -/
theorem C10_empty_data_skip :
    (∀ completed : List ScanOutcome, (aggregate completed).scanData = [] →
        scan_images_writes_reports (aggregate completed) = false) ∧
    (∀ dcs : List DetailedCheck, write_and_format_xlsx [] dcs =
        Except.error (str "No data to write to XLSX")) ∧
    (∀ dcs : List DetailedCheck, write_html_report [] dcs =
        Except.error (str "No data to write to HTML report")) := by
  refine ⟨fun completed h => ?_, fun _ => rfl, fun _ => rfl⟩
  simp [scan_images_writes_reports, h]

/-- Claim C10, witness: a run whose only task failed (hence produced no
rows) skips report writing. -/
theorem C10_empty_data_skip_witness :
    scan_images_writes_reports (aggregate [⟨true, [], [], str "imgA"⟩]) = false :=
  C10_empty_data_skip.1 [⟨true, [], [], str "imgA"⟩] rfl

end QuickScan
